import Mathlib

/-! Shallow embedding of `plothist/plotters.py` (histogram plotting library).

Histogram bin contents and variances are numpy floats in the source; they are
modelled by `EF`, rationals extended with the IEEE special values `+inf`,
`-inf` and `nan` (exact arithmetic instead of rounding, which no claim here
depends on).  A `boost_histogram.Histogram` with `Weight` storage is modelled
by `Hist1D`: a list of bin edges together with a list of bins, each bin
holding a value and a variance.  Matplotlib calls are modelled as emitted
`PlotEvent`s; figures and axes are opaque handles (`Option Nat`).  Python
`ValueError`s become `Except` errors.
-/

deriving instance DecidableEq for Except

namespace Plothist

/-- Extended float values: finite rational, +inf, -inf, or nan. -/
inductive EF where
  | fin (q : ℚ)
  | pinf
  | ninf
  | nan
deriving DecidableEq, Repr

namespace EF

/-- IEEE `<` as a boolean: any comparison involving nan is false. -/
def lt : EF → EF → Bool
  | fin a, fin b => decide (a < b)
  | fin _, pinf => true
  | ninf, fin _ => true
  | ninf, pinf => true
  | _, _ => false

/-- IEEE `>` as a boolean (used by `x_min > x_max` in `create_axis`). -/
def gt (a b : EF) : Bool := lt b a

/-- Model of `np.isfinite`. -/
def isFinite : EF → Bool
  | fin _ => true
  | _ => false

/-- IEEE addition (exact in the finite case). -/
def add : EF → EF → EF
  | nan, _ => nan
  | _, nan => nan
  | pinf, ninf => nan
  | ninf, pinf => nan
  | pinf, _ => pinf
  | _, pinf => pinf
  | ninf, _ => ninf
  | _, ninf => ninf
  | fin a, fin b => fin (a + b)

/-- IEEE negation. -/
def neg : EF → EF
  | fin q => fin (-q)
  | pinf => ninf
  | ninf => pinf
  | nan => nan

/-- IEEE subtraction. -/
def sub (a b : EF) : EF := add a (neg b)

/-- IEEE division (exact in the finite case; signed zeros are not modelled,
so `x / 0` takes the sign of `x` as numpy does for `+0`). -/
def div : EF → EF → EF
  | nan, _ => nan
  | _, nan => nan
  | fin a, fin b =>
      if b = 0 then (if a = 0 then nan else if a > 0 then pinf else ninf)
      else fin (a / b)
  | fin _, pinf => fin 0
  | fin _, ninf => fin 0
  | pinf, fin b => if b < 0 then ninf else pinf
  | ninf, fin b => if b < 0 then pinf else ninf
  | pinf, _ => nan
  | ninf, _ => nan

end EF

/-- The largest double, `(2^53 - 1) * 2^971` (what `np.nan_to_num` substitutes
for `+inf` by default). -/
def floatMax : ℚ := (2 ^ 53 - 1) * 2 ^ 971

/-- Model of `np.nan_to_num` with its default substitutions: nan to 0, positive and
negative infinity to `floatMax` and `-floatMax`. -/
def nanToNum : EF → EF
  | .nan => .fin 0
  | .pinf => .fin floatMax
  | .ninf => .fin (-floatMax)
  | .fin q => .fin q

/-- An endpoint of the `range` argument of `create_axis`: either an explicit
value or one of the strings "min" / "max" resolved from the data. -/
inductive RangeEnd where
  | val (x : EF)
  | dataMin
  | dataMax
deriving DecidableEq, Repr

/-- The `range` argument of `create_axis` (a pair). -/
structure RangeSpec where
  lo : RangeEnd
  hi : RangeEnd
deriving DecidableEq, Repr

/-- The `bins` argument: an integer bin count, or explicit bin edges. -/
inductive BinsSpec where
  | count (n : ℕ)
  | edges (es : List ℚ)
deriving DecidableEq, Repr

/-- Errors raised by the embedded functions.  All constructors except
`badBins` model a Python `ValueError`; `badBins` models the `TypeError`
raised downstream when a bin-edge list of length <= 1 reaches
`bh.axis.Regular`. -/
inductive Err where
  | rangeMaxLtMin
  | rangeNotFinite
  | autoRangeNotFinite
  | emptyMinMax
  | badBins
  | needComponent
  | binningMismatch
  | needFigAx
  | dataNotTwo
  | dataLenMismatch
deriving DecidableEq, Repr

/-- Which errors are Python `ValueError`s. -/
def Err.isValueError : Err → Bool
  | .badBins => false
  | _ => true

/-- Python's `min` over a list: fold keeping the accumulator unless the next
element compares `<` (so nan never replaces a non-nan accumulator), `none` on
the empty list (where Python raises `ValueError`). -/
def pyMin (l : List EF) : Option EF :=
  match l with
  | [] => none
  | x :: t => some (t.foldl (fun a b => if EF.lt b a then b else a) x)

/-- Python's `max` over a list, same conventions as `pyMin`. -/
def pyMax (l : List EF) : Option EF :=
  match l with
  | [] => none
  | x :: t => some (t.foldl (fun a b => if EF.lt a b then b else a) x)

/-- Resolve one endpoint of the range argument: the string "min" ("max")
becomes `min(data)` (`max(data)`). -/
def resolveEnd (data : List EF) : RangeEnd → Option EF
  | .val x => some x
  | .dataMin => pyMin data
  | .dataMax => pyMax data

/-- The axis object returned by `create_axis`: `bh.axis.Regular` or
`bh.axis.Variable`. -/
inductive Axis where
  | regular (n : ℕ) (lo hi : ℚ)
  | variableAxis (es : List ℚ)
deriving DecidableEq, Repr

/-- Last step of `create_axis` once finite endpoints are known: expand a
degenerate range by 0.5 on each side, then build the regular axis. -/
def finishAxis (n : ℕ) (xmin xmax : ℚ) : Axis :=
  if xmin = xmax then .regular n (xmin - 1/2) (xmax + 1/2)
  else .regular n xmin xmax

/-- Model of `create_axis(data, bins, range)` from `plotters.py`:
with explicit bin edges (length > 1) return a `Variable` axis ignoring the
range; otherwise resolve the range (explicitly given, `(0, 1)` for empty data,
or autodetected from the data), raising `ValueError` when max < min or the
endpoints are not finite, and expanding a degenerate range. -/
def create_axis (data : List EF) (bins : BinsSpec) (range? : Option RangeSpec) :
    Except Err Axis :=
  match bins with
  | .edges es => if es.length > 1 then .ok (.variableAxis es) else .error .badBins
  | .count n =>
    match range? with
    | some r =>
      match resolveEnd data r.lo, resolveEnd data r.hi with
      | some xmin, some xmax =>
        if EF.gt xmin xmax then .error .rangeMaxLtMin
        else if !(xmin.isFinite && xmax.isFinite) then .error .rangeNotFinite
        else
          match xmin, xmax with
          | .fin a, .fin b => .ok (finishAxis n a b)
          | _, _ => .error .rangeNotFinite
      | _, _ => .error .emptyMinMax
    | none =>
      match data with
      | [] => .ok (finishAxis n 0 1)
      | _ :: _ =>
        match pyMin data, pyMax data with
        | some xmin, some xmax =>
          if !(xmin.isFinite && xmax.isFinite) then .error .autoRangeNotFinite
          else
            match xmin, xmax with
            | .fin a, .fin b => .ok (finishAxis n a b)
            | _, _ => .error .autoRangeNotFinite
        | _, _ => .error .emptyMinMax

/-- One histogram bin of a `Weight`-storage boost histogram: a value and a
variance. -/
structure Bin where
  value : EF
  variance : EF
deriving DecidableEq, Repr

/-- A one-dimensional boost histogram: bin edges of its (single) axis and the
list of bins.  In the library the axis determines the number of bins
(`bins.length + 1 = edges.length`); the functions below only ever compare and
combine histograms through `_check_binning_consistency`, which checks both. -/
structure Hist1D where
  edges : List ℚ
  bins : List Bin
deriving DecidableEq, Repr

/-- Two histograms have the same binning: same axis edges (hence the same
number of bins, checked here explicitly since the representation stores bins
separately). -/
def Hist1D.consistentWith (h g : Hist1D) : Bool :=
  h.edges == g.edges && h.bins.length == g.bins.length

/-- Modelled from the spec: `_check_binning_consistency` lives in
`plothist.comparison`, which is not under `src/`.  The spec says the code
"raises on invalid parameter combinations (mismatched binning, ...)";
this model checks every histogram of the list against the first and is the
boolean condition on which the callers raise. -/
def _check_binning_consistency (hs : List Hist1D) : Bool :=
  match hs with
  | [] => true
  | h :: t => t.all (fun g => h.consistentWith g)

/-- Bin-wise addition of two histograms (`h1 + h2` on boost histograms adds
values and variances); the axis of the first operand is kept. -/
def histAdd (h g : Hist1D) : Hist1D :=
  ⟨h.edges, List.zipWith (fun b c => ⟨EF.add b.value c.value, EF.add b.variance c.variance⟩) h.bins g.bins⟩

/-- Python's `sum(components)` over histograms (`0 + c0 + c1 + ...`, where
`0 + c0` is `c0`). -/
def sumHists : List Hist1D → Hist1D
  | [] => ⟨[], []⟩
  | h :: t => t.foldl histAdd h

/-- Replace every bin value by one of the histogram's axis: zero variances
(what `model_hist[:] = np.c_[values, zeros]` does in `compare_data_model`
when `model_uncertainty` is false). -/
def zeroVariances (h : Hist1D) : Hist1D :=
  ⟨h.edges, h.bins.map (fun b => ⟨b.value, .fin 0⟩)⟩

/-- What a call to `plot_hist` on a single histogram does: the weights
forwarded to `ax.hist` and the state of the histogram after the call. -/
structure PlotHistOut where
  weights : List EF
  histAfter : Hist1D
deriving DecidableEq, Repr

/-- The histogram after `np.nan_to_num(hist.values(), 0)`: the second
positional argument of `np.nan_to_num` is `copy`, so the call runs with
`copy=False` on `hist.values()`, which is a writable view into the
histogram's storage -- the conversion happens in place and the stored bin
values (not the variances) are replaced by their converted values. -/
def nanToNumBins (h : Hist1D) : Hist1D :=
  ⟨h.edges, h.bins.map (fun b => ⟨nanToNum b.value, b.variance⟩)⟩

/-- Model of `plot_hist(hist, ax)` on a single histogram: forwards
`np.nan_to_num(hist.values(), 0)` as the weights of the `ax.hist` call (see
`nanToNumBins` for the in-place effect on the histogram). -/
def plot_hist (h : Hist1D) : PlotHistOut :=
  ⟨h.bins.map (fun b => nanToNum b.value), nanToNumBins h⟩

/-- What a call to `plot_hist` on a list of histograms does. -/
structure PlotHistListOut where
  weights : List (List EF)
  histsAfter : List Hist1D
deriving DecidableEq, Repr

/-- Model of `plot_hist(hist, ax)` on a list: checks binning consistency, then
forwards `np.nan_to_num(h.values(), 0)` for each histogram. -/
def plot_hist_list (hs : List Hist1D) : Except Err PlotHistListOut :=
  if _check_binning_consistency hs then
    .ok ⟨hs.map (fun h => h.bins.map (fun b => nanToNum b.value)), hs.map nanToNumBins⟩
  else .error .binningMismatch

/-- The five comparison types computed bin-wise between two histograms. -/
inductive ComparisonType where
  | ratioCmp
  | pull
  | difference
  | relative_difference
  | efficiency
deriving DecidableEq, Repr

/-- The two uncertainty types of `plot_error_hist` / `hist_1_uncertainty`. -/
inductive UncertaintyType where
  | symmetrical
  | asymmetrical
deriving DecidableEq, Repr

/-- The `ratio_uncertainty` argument of `plot_comparison`. -/
inductive RatioUncertainty where
  | uncorrelated
  | split
deriving DecidableEq, Repr

/-- Square root lifted to extended values, parametrised by an exact square
root `s` on nonnegative rationals (`np.sqrt`; negative arguments give nan). -/
def efSqrt (s : ℚ → ℚ) : EF → EF
  | .nan => .nan
  | .ninf => .nan
  | .pinf => .pinf
  | .fin q => if q < 0 then .nan else .fin (s q)

/-- Modelled from the spec: the per-bin comparison value of `get_comparison`
(`plothist.comparison`, not under `src/`).  The spec describes "bin-wise
comparison values (ratio, pull, difference, relative difference,
efficiency)"; the formulas follow the axis labels drawn by `plot_comparison`
in `plotters.py` (ratio h1/h2, pull (h1-h2)/sqrt(s1^2+s2^2), difference
h1-h2, relative difference (h1-h2)/h2) and the efficiency value is the ratio
of the sample to the total histogram. -/
def compBin (s : ℚ → ℚ) (c : ComparisonType) (b1 b2 : Bin) : EF :=
  match c with
  | .ratioCmp => EF.div b1.value b2.value
  | .pull => EF.div (EF.sub b1.value b2.value) (efSqrt s (EF.add b1.variance b2.variance))
  | .difference => EF.sub b1.value b2.value
  | .relative_difference => EF.div (EF.sub b1.value b2.value) b2.value
  | .efficiency => EF.div b1.value b2.value

/-- Modelled from the spec: the comparison values returned by
`get_comparison` (`plothist.comparison`, not under `src/`): the per-bin
function `compBin` applied bin by bin.  The propagated uncertainties, which
no claim states a formula for, are not modelled. -/
def get_comparison (s : ℚ → ℚ) (h1 h2 : Hist1D) (c : ComparisonType) : List EF :=
  List.zipWith (compBin s c) h1.bins h2.bins

/-- Model of `plot_comparison(hist_1, hist_2, ax, ...)`: checks binning consistency,
then computes the bin-wise comparison values via `get_comparison` (the
`ratio_uncertainty` and `hist_1_uncertainty` arguments only affect the drawn
uncertainties, not the comparison values). -/
def plot_comparison (s : ℚ → ℚ) (h1 h2 : Hist1D) (c : ComparisonType)
    (ru : RatioUncertainty) (h1u : UncertaintyType) : Except Err (List EF) :=
  if _check_binning_consistency [h1, h2] then .ok (get_comparison s h1 h2 c)
  else .error .binningMismatch

/-- Modelled from the spec: `_is_unweighted` (`plothist.comparison`, not
under `src/`).  Per the spec and the `plot_error_hist` docstring, a
histogram is unweighted when its bin contents are Poisson counts, i.e. every
bin's variance equals its value (the library tests this with a numerical
allclose, modelled as exact equality in exact arithmetic). -/
def _is_unweighted (h : Hist1D) : Bool :=
  h.bins.all (fun b => b.variance == b.value)

/-- Model of `plot_error_hist(hist, ax, uncertainty_type)`: the error bars drawn,
as a pair (lower, upper) of per-bin uncertainty lists.  "symmetrical" uses
`sqrt(hist.variances())` on both sides; "asymmetrical" uses the asymmetric
Poisson confidence interval of each bin content, modelled from the spec as
an abstract per-bin function `pci` (its closed form, from
`get_asymmetrical_uncertainties` in `plothist.comparison`, is not under
`src/` and no claim states it). -/
def plot_error_hist (s : ℚ → ℚ) (pci : EF → EF × EF) (h : Hist1D)
    (ut : UncertaintyType) : List EF × List EF :=
  match ut with
  | .symmetrical =>
      (h.bins.map (fun b => efSqrt s b.variance), h.bins.map (fun b => efSqrt s b.variance))
  | .asymmetrical =>
      (h.bins.map (fun b => (pci b.value).1), h.bins.map (fun b => (pci b.value).2))

/-- The `sum_kwargs` dictionary of `plot_model`: the special key "show" and
the remaining keyword arguments forwarded to `plot_hist` for the sum
(modelled by the two the default dictionary carries, "label" and "color").
`none` models an absent key. -/
structure SumKwargs where
  showKey : Option Bool
  label : Option String
  color : Option String
deriving DecidableEq, Repr

/-- Model of `sum_kwargs.pop("show", True)`: returns the value of "show" (defaulting
to true) and removes the key from the dictionary. -/
def popShow (kw : SumKwargs) : Bool × SumKwargs :=
  (kw.showKey.getD true, ⟨none, kw.label, kw.color⟩)

/-- The matplotlib calls a model-plotting run performs, in order. -/
inductive PlotEvent where
  | stackedPlot (hs : List Hist1D)
  | unstackedPlot (hs : List Hist1D)
  | sumPlot (h : Hist1D) (label color : Option String)
deriving DecidableEq, Repr

/-- Result of `plot_model`: the plotting calls made, the state of the
caller's `sum_kwargs` dictionary after the call, and whether a new figure
was created. -/
structure PlotModelOut where
  events : List PlotEvent
  kwargsAfter : SumKwargs
  newFigure : Bool
deriving DecidableEq, Repr

/-- Plotting part of `plot_model` after its argument checks: plot the
stacked components, then the unstacked ones, then (if `sum_kwargs.pop`
yields true) the sum of all components with the remaining kwargs. -/
def plot_model_body (stacked unstacked : List Hist1D) (sumKw : SumKwargs)
    (newFig : Bool) : PlotModelOut :=
  let ev1 := if stacked.isEmpty then ([] : List PlotEvent) else [.stackedPlot stacked]
  if unstacked.isEmpty then ⟨ev1, sumKw, newFig⟩
  else
    let p := popShow sumKw
    let ev2 := ev1 ++ [.unstackedPlot unstacked]
    let ev3 := if p.1 then
        ev2 ++ [.sumPlot (sumHists (stacked ++ unstacked)) p.2.label p.2.color]
      else ev2
    ⟨ev3, p.2, newFig⟩

/-- Model of `plot_model(stacked_components, ..., unstacked_components, ...,
sum_kwargs, fig, ax)`: raises when there is no component, when the binning
is inconsistent, or when exactly one of `fig`, `ax` is provided; creates a
new figure when both are `None`.  The `flatten_2d_hist` option (a 2D
preprocessing step) is outside this 1D model. -/
def plot_model (stacked unstacked : List Hist1D) (sumKw : SumKwargs)
    (fig ax : Option ℕ) : Except Err PlotModelOut :=
  let components := stacked ++ unstacked
  if components.isEmpty then .error .needComponent
  else if !(_check_binning_consistency components) then .error .binningMismatch
  else if fig.isNone && ax.isNone then .ok (plot_model_body stacked unstacked sumKw true)
  else if fig.isNone || ax.isNone then .error .needFigAx
  else .ok (plot_model_body stacked unstacked sumKw false)

/-- Result of `plot_2d_hist`: whether a new figure (with its colorbar axes)
was created. -/
structure Plot2DOut where
  newFigure : Bool
deriving DecidableEq, Repr

/-- Figure/axes handling of `plot_2d_hist(hist, fig, ax, ax_colorbar, ...)`:
a new figure is created when all three are `None`; a `ValueError` is raised
when only some are.  (The pcolormesh/colorbar drawing on the given 2D
histogram is presentation glue not modelled here.) -/
def plot_2d_hist (fig ax axColorbar : Option ℕ) : Except Err Plot2DOut :=
  if fig.isNone && ax.isNone && axColorbar.isNone then .ok ⟨true⟩
  else if fig.isNone || ax.isNone || axColorbar.isNone then .error .needFigAx
  else .ok ⟨false⟩

/-- Result of `compare_two_hist`. -/
structure CompareTwoOut where
  comparisonValues : List EF
  newFigure : Bool
deriving DecidableEq, Repr

/-- Model of `compare_two_hist(hist_1, hist_2, ..., fig, ax_main, ax_comparison,
**comparison_kwargs)`: checks binning consistency, then the figure/axes
arguments (new figure iff all three are `None`), plots both histograms and
delegates to `plot_comparison`. -/
def compare_two_hist (s : ℚ → ℚ) (h1 h2 : Hist1D) (c : ComparisonType)
    (ru : RatioUncertainty) (h1u : UncertaintyType)
    (fig axMain axComparison : Option ℕ) : Except Err CompareTwoOut :=
  if !(_check_binning_consistency [h1, h2]) then .error .binningMismatch
  else
    let go : Bool → Except Err CompareTwoOut := fun newFig =>
      match plot_comparison s h1 h2 c ru h1u with
      | .ok vs => .ok ⟨vs, newFig⟩
      | .error e => .error e
    if fig.isNone && axMain.isNone && axComparison.isNone then go true
    else if fig.isNone || axMain.isNone || axComparison.isNone then .error .needFigAx
    else go false

/-- Result of `compare_data_model`: the model-plotting calls, the state of
the `model_sum_kwargs` dictionary, the uncertainty type selected for the
data, the error bars drawn for the data, the uncertainty type forwarded to
`plot_comparison` as `hist_1_uncertainty`, the comparison values, and
whether a new figure was created. -/
structure CompareDataModelOut where
  modelEvents : List PlotEvent
  modelKwargsAfter : SumKwargs
  dataUncertaintyType : UncertaintyType
  dataYerrLow : List EF
  dataYerrHigh : List EF
  comparisonH1Uncertainty : UncertaintyType
  comparisonValues : List EF
  newFigure : Bool
deriving DecidableEq, Repr

/-- Model of `compare_data_model(data_hist, stacked_components, ...,
unstacked_components, ..., model_sum_kwargs, model_uncertainty, fig,
ax_main, ax_comparison, **comparison_kwargs)`: raises when there is no
model component, when the binning of the components and the data is
inconsistent, or when only some figure/axes arguments are given; plots the
model via `plot_model`, zeroes the summed model variances when
`model_uncertainty` is false, selects asymmetrical data uncertainties iff
the data histogram is unweighted, draws the data error bars, and forwards
the selected uncertainty type to `plot_comparison` (whose comparison type
defaults to "ratio" via `comparison_kwargs.setdefault`). -/
def compare_data_model (s : ℚ → ℚ) (pci : EF → EF × EF) (data : Hist1D)
    (stacked unstacked : List Hist1D) (modelSumKw : SumKwargs)
    (modelUncertainty : Bool) (cmpArg : Option ComparisonType)
    (ru : RatioUncertainty) (fig axMain axComparison : Option ℕ) :
    Except Err CompareDataModelOut :=
  let c := cmpArg.getD .ratioCmp
  let components := stacked ++ unstacked
  if components.isEmpty then .error .needComponent
  else if !(_check_binning_consistency (components ++ [data])) then .error .binningMismatch
  else
    let go : Bool → Except Err CompareDataModelOut := fun newFig =>
      match plot_model stacked unstacked modelSumKw (some 0) (some 0) with
      | .error e => .error e
      | .ok mo =>
        let model_hist0 := sumHists components
        let model_hist := if modelUncertainty then model_hist0 else zeroVariances model_hist0
        let ut := if _is_unweighted data then UncertaintyType.asymmetrical
                  else UncertaintyType.symmetrical
        let yerr := plot_error_hist s pci data ut
        match plot_comparison s data model_hist c ru ut with
        | .error e => .error e
        | .ok vs => .ok ⟨mo.events, mo.kwargsAfter, ut, yerr.1, yerr.2, ut, vs, newFig⟩
    if fig.isNone && axMain.isNone && axComparison.isNone then go true
    else if fig.isNone || axMain.isNone || axComparison.isNone then .error .needFigAx
    else go false

/-- The `sum_kwargs` dictionary both MC wrappers pass:
`{"show": True, "label": "Sum(MC)", "color": "navy"}`. -/
def mcSumKwargs : SumKwargs := ⟨some true, some "Sum(MC)", some "navy"⟩

/-- Model of `plot_mc(mc_hist_list, signal_hist, ..., stacked, fig, ax)`: checks the
binning of the MC histograms (and the signal, when given), then calls
`plot_model` with the MC list as stacked or unstacked components. -/
def plot_mc (mcList : List Hist1D) (signal : Option Hist1D) (stacked : Bool)
    (fig ax : Option ℕ) : Except Err PlotModelOut :=
  if !(_check_binning_consistency (mcList ++ signal.toList)) then .error .binningMismatch
  else if stacked then plot_model mcList [] mcSumKwargs fig ax
  else plot_model [] mcList mcSumKwargs fig ax

/-- Model of `compare_data_mc(data_hist, mc_hist_list, signal_hist, ..., stacked,
...)`: checks the binning of MC histograms, data and signal, then calls
`compare_data_model` with the MC list as stacked or unstacked components
(the comparison defaults of `compare_data_model`, including
`ratio_uncertainty="split"`, apply). -/
def compare_data_mc (s : ℚ → ℚ) (pci : EF → EF × EF) (data : Hist1D)
    (mcList : List Hist1D) (signal : Option Hist1D) (stacked : Bool)
    (mcUncertainty : Bool) (cmpArg : Option ComparisonType)
    (fig axMain axComparison : Option ℕ) : Except Err CompareDataModelOut :=
  if !(_check_binning_consistency (mcList ++ [data] ++ signal.toList)) then
    .error .binningMismatch
  else if stacked then
    compare_data_model s pci data mcList [] mcSumKwargs mcUncertainty cmpArg
      .split fig axMain axComparison
  else
    compare_data_model s pci data [] mcList mcSumKwargs mcUncertainty cmpArg
      .split fig axMain axComparison

/-- Lower and upper edge of an axis' in-range region (`axis.edges[0]` and
`axis.edges[-1]`). -/
def axisBounds : Axis → ℚ × ℚ
  | .regular _ lo hi => (lo, hi)
  | .variableAxis es => (es.headD 0, es.getLastD 0)

/-- Sum of the weights landing in `[lo, hi)` and of all weights, for a list
of (data point, weight) pairs: `h.values().sum()` and
`h.values(flow=True).sum()` after the fill (a point at or above the upper
edge goes to the overflow bin, one below the lower edge to the underflow
bin). -/
def fillSums (lo hi : ℚ) (pts : List (ℚ × ℚ)) : ℚ × ℚ :=
  pts.foldl
    (fun acc p => (acc.1 + (if lo ≤ p.1 ∧ p.1 < hi then p.2 else 0), acc.2 + p.2))
    (0, 0)

/-- Model of `range_coverage < 0.99` after the fill, with float division semantics:
the coverage is `inSum / total`; when `total = 0` numpy yields nan (0/0) or
infinities, of which only `-inf` (negative `inSum`) compares below 0.99. -/
def coverageWarns (inSum total : ℚ) : Bool :=
  if total = 0 then decide (inSum < 0) else decide (inSum / total < 99/100)

/-- Result of `make_hist`: the created axis and whether the low-coverage
warning was emitted. -/
structure MakeHistOut where
  axis : Axis
  warned : Bool
deriving DecidableEq, Repr

/-- Model of `make_hist(data, bins, range, weights)`: create the axis, fill the
histogram (data modelled as finite floats zipped with per-point weights),
and warn when less than 99% of the filled content lies in the binning
range. -/
def make_hist (data : List ℚ) (bins : BinsSpec) (range? : Option RangeSpec)
    (weights : List ℚ) : Except Err MakeHistOut :=
  match create_axis (data.map EF.fin) bins range? with
  | .error e => .error e
  | .ok a =>
    let b := axisBounds a
    let sums := fillSums b.1 b.2 (data.zip weights)
    .ok ⟨a, coverageWarns sums.1 sums.2⟩

/-- Result of `make_2d_hist`. -/
structure Make2DOut where
  axis1 : Axis
  axis2 : Axis
  warned : Bool
deriving DecidableEq, Repr

/-- In-range and total weight sums for the 2D fill: a point is in range iff
both coordinates are. -/
def fillSums2 (lo1 hi1 lo2 hi2 : ℚ) (pts : List ((ℚ × ℚ) × ℚ)) : ℚ × ℚ :=
  pts.foldl
    (fun acc p =>
      (acc.1 + (if lo1 ≤ p.1.1 ∧ p.1.1 < hi1 ∧ lo2 ≤ p.1.2 ∧ p.1.2 < hi2 then p.2 else 0),
       acc.2 + p.2))
    (0, 0)

/-- Model of `make_2d_hist(data, bins, range, weights)`: raises unless `data` has
exactly two components of equal length; creates both axes, fills, and warns
when less than 99% of the filled content lies in the binning ranges. -/
def make_2d_hist (data : List (List ℚ)) (bins1 bins2 : BinsSpec)
    (r1 r2 : Option RangeSpec) (weights : List ℚ) : Except Err Make2DOut :=
  if data.length ≠ 2 then .error .dataNotTwo
  else
    let xs := data.headD []
    let ys := (data.drop 1).headD []
    if xs.length ≠ ys.length then .error .dataLenMismatch
    else
      match create_axis (xs.map EF.fin) bins1 r1 with
      | .error e => .error e
      | .ok a1 =>
        match create_axis (ys.map EF.fin) bins2 r2 with
        | .error e => .error e
        | .ok a2 =>
          let b1 := axisBounds a1
          let b2 := axisBounds a2
          let sums := fillSums2 b1.1 b1.2 b2.1 b2.2 ((xs.zip ys).zip weights)
          .ok ⟨a1, a2, coverageWarns sums.1 sums.2⟩

/-! Section: Helper lemmas -/

theorem EF.lt_irrefl (x : EF) : EF.lt x x = false := by
  cases x <;> simp [EF.lt]

theorem EF.isFinite_iff {x : EF} : x.isFinite = true ↔ ∃ q, x = .fin q := by
  cases x <;> simp [EF.isFinite]

/-- Folding Python's `max` and `min` update steps from accumulators that are
not in the wrong order keeps them that way (no transitivity needed: each
step either keeps both accumulators, moves one towards the other, or sets
both to the new element). -/
theorem foldl_max_min_not_lt (t : List EF) : ∀ x y : EF, EF.lt y x = false →
    EF.lt (t.foldl (fun a b => if EF.lt a b then b else a) y)
      (t.foldl (fun a b => if EF.lt b a then b else a) x) = false := by
  induction t with
  | nil => intro x y h; simpa using h
  | cons b t ih =>
    intro x y h
    simp only [List.foldl_cons]
    apply ih
    by_cases h1 : EF.lt b x = true
    · by_cases h2 : EF.lt y b = true
      · simp [h1, h2, EF.lt_irrefl]
      · simp only [Bool.not_eq_true] at h2
        simp [h1, h2]
    · simp only [Bool.not_eq_true] at h1
      by_cases h2 : EF.lt y b = true
      · simp [h1, h2]
      · simp only [Bool.not_eq_true] at h2
        simp [h1, h2, h]

/-- Resolved `min(data)` never compares greater than `max(data)` (in the IEEE order
where nan is incomparable). -/
theorem pyMax_not_lt_pyMin {l : List EF} {m M : EF}
    (hm : pyMin l = some m) (hM : pyMax l = some M) : EF.lt M m = false := by
  cases l with
  | nil => simp [pyMin] at hm
  | cons x t =>
    simp only [pyMin, Option.some.injEq] at hm
    simp only [pyMax, Option.some.injEq] at hM
    subst hm; subst hM
    exact foldl_max_min_not_lt t x x (EF.lt_irrefl x)

theorem EF.not_lt_of_fin {a b : ℚ} (h : EF.lt (.fin a) (.fin b) = false) : ¬ a < b := by
  simpa [EF.lt] using h

/-! Section: Claims about `create_axis` -/

/-- Claim C4: with an integer bin count, `create_axis` raises `ValueError`
when the resolved explicit range has minimum exceeding maximum or endpoints
not both finite, and likewise when the range autodetected from the data is
not finite. -/
theorem C4_create_axis_invalid_range :
    (∀ (data : List EF) (n : ℕ) (r : RangeSpec) (xmin xmax : EF),
      resolveEnd data r.lo = some xmin → resolveEnd data r.hi = some xmax →
      (EF.gt xmin xmax = true ∨ ¬(xmin.isFinite = true ∧ xmax.isFinite = true)) →
      ∃ e, create_axis data (.count n) (some r) = .error e ∧ e.isValueError = true) ∧
    (∀ (data : List EF) (n : ℕ) (m M : EF),
      pyMin data = some m → pyMax data = some M →
      ¬(m.isFinite = true ∧ M.isFinite = true) →
      ∃ e, create_axis data (.count n) none = .error e ∧ e.isValueError = true) := by
  constructor
  · intro data n r xmin xmax h1 h2 hbad
    simp only [create_axis, h1, h2]
    by_cases hg : EF.gt xmin xmax = true
    · exact ⟨.rangeMaxLtMin, by simp [hg], rfl⟩
    · have hfin : ¬(xmin.isFinite = true ∧ xmax.isFinite = true) := by
        rcases hbad with hb | hb
        · exact absurd hb hg
        · exact hb
      refine ⟨.rangeNotFinite, ?_, rfl⟩
      have hff : (xmin.isFinite && xmax.isFinite) = false := by
        cases ha : xmin.isFinite <;> cases hb : xmax.isFinite <;> simp_all
      simp [hg, hff]
  · intro data n m M hm hM hfin
    cases data with
    | nil => simp [pyMin] at hm
    | cons x t =>
      simp only [create_axis, hm, hM]
      refine ⟨.autoRangeNotFinite, ?_, rfl⟩
      have hff : (m.isFinite && M.isFinite) = false := by
        cases ha : m.isFinite <;> cases hb : M.isFinite <;> simp_all
      simp [hff]

/-- Witness for C4 at concrete inputs: an infinite explicit range and
all-nan data both raise. -/
theorem C4_witness :
    (∃ e, create_axis [] (.count 5) (some ⟨.val .ninf, .val .pinf⟩) = .error e ∧
      e.isValueError = true) ∧
    (∃ e, create_axis [.nan] (.count 5) none = .error e ∧ e.isValueError = true) :=
  ⟨C4_create_axis_invalid_range.1 [] 5 ⟨.val .ninf, .val .pinf⟩ .ninf .pinf
      (by decide) (by decide) (by decide),
    C4_create_axis_invalid_range.2 [.nan] 5 .nan .nan (by decide) (by decide) (by decide)⟩

/-- Claim C9: `create_axis` always returns an axis of positive width on the
regular-axis path: empty data with no range gives the default `(0, 1)`
range, a degenerate resolved range (explicit or autodetected) is expanded by
0.5 on each side, and every returned regular axis has its lower edge
strictly below its upper edge. -/
theorem C9_create_axis_positive_width :
    (∀ n : ℕ, create_axis [] (.count n) none = .ok (.regular n 0 1)) ∧
    (∀ (data : List EF) (n : ℕ) (r : RangeSpec) (q : ℚ),
      resolveEnd data r.lo = some (.fin q) → resolveEnd data r.hi = some (.fin q) →
      create_axis data (.count n) (some r) = .ok (.regular n (q - 1/2) (q + 1/2))) ∧
    (∀ (data : List EF) (n : ℕ) (q : ℚ),
      pyMin data = some (.fin q) → pyMax data = some (.fin q) →
      create_axis data (.count n) none = .ok (.regular n (q - 1/2) (q + 1/2))) ∧
    (∀ (data : List EF) (bins : BinsSpec) (range? : Option RangeSpec)
        (n : ℕ) (lo hi : ℚ),
      create_axis data bins range? = .ok (.regular n lo hi) → lo < hi) := by
  refine ⟨?_, ?_, ?_, ?_⟩
  · intro n
    simp [create_axis, finishAxis]
  · intro data n r q h1 h2
    simp [create_axis, h1, h2, EF.gt, EF.lt_irrefl, EF.isFinite, finishAxis]
  · intro data n q hm hM
    cases data with
    | nil => simp [pyMin] at hm
    | cons x t =>
      simp [create_axis, hm, hM, EF.isFinite, finishAxis]
  · intro data bins range? n lo hi h
    cases bins with
    | edges es =>
      by_cases hl : es.length > 1 <;> simp [create_axis, hl] at h
    | count n' =>
      cases range? with
      | some r =>
        cases h1 : resolveEnd data r.lo with
        | none => simp [create_axis, h1] at h
        | some xmin =>
          cases h2 : resolveEnd data r.hi with
          | none => simp [create_axis, h1, h2] at h
          | some xmax =>
            simp only [create_axis, h1, h2] at h
            by_cases hg : EF.gt xmin xmax = true
            · simp [hg] at h
            · cases xmin with
              | fin q1 =>
                cases xmax with
                | fin q2 =>
                  simp only [hg, EF.isFinite, if_false, Bool.false_eq_true,
                    Bool.and_self, Bool.not_true, ite_false] at h
                  have hle : q1 ≤ q2 :=
                    le_of_not_lt (EF.not_lt_of_fin (by simpa [EF.gt] using hg))
                  by_cases he : q1 = q2
                  · subst he
                    simp [finishAxis] at h
                    rcases h with ⟨rfl, rfl, rfl⟩
                    linarith
                  · simp [finishAxis, he] at h
                    rcases h with ⟨rfl, rfl, rfl⟩
                    exact lt_of_le_of_ne hle he
                | pinf => simp [hg, EF.isFinite] at h
                | ninf => simp [hg, EF.isFinite] at h
                | nan => simp [hg, EF.isFinite] at h
              | pinf => simp [hg, EF.isFinite] at h
              | ninf => simp [hg, EF.isFinite] at h
              | nan => simp [hg, EF.isFinite] at h
      | none =>
        cases data with
        | nil =>
          simp [create_axis, finishAxis] at h
          rcases h with ⟨rfl, rfl, rfl⟩
          norm_num
        | cons x t =>
          have hm : pyMin (x :: t) = some ((t.foldl (fun a b => if EF.lt b a then b else a) x)) := rfl
          have hM : pyMax (x :: t) = some ((t.foldl (fun a b => if EF.lt a b then b else a) x)) := rfl
          have hnl := pyMax_not_lt_pyMin hm hM
          simp only [create_axis, hm, hM] at h
          cases hfm : t.foldl (fun a b => if EF.lt b a then b else a) x with
          | fin q1 =>
            cases hfM : t.foldl (fun a b => if EF.lt a b then b else a) x with
            | fin q2 =>
              rw [hfm, hfM] at h hnl
              simp only [EF.isFinite, Bool.and_self, Bool.not_true, Bool.false_eq_true,
                ite_false, if_false] at h
              have hle : q1 ≤ q2 := le_of_not_lt (EF.not_lt_of_fin hnl)
              by_cases he : q1 = q2
              · subst he
                simp [finishAxis] at h
                rcases h with ⟨rfl, rfl, rfl⟩
                linarith
              · simp [finishAxis, he] at h
                rcases h with ⟨rfl, rfl, rfl⟩
                exact lt_of_le_of_ne hle he
            | pinf => rw [hfm, hfM] at h; simp [EF.isFinite] at h
            | ninf => rw [hfm, hfM] at h; simp [EF.isFinite] at h
            | nan => rw [hfm, hfM] at h; simp [EF.isFinite] at h
          | pinf => rw [hfm] at h; simp [EF.isFinite] at h
          | ninf => rw [hfm] at h; simp [EF.isFinite] at h
          | nan => rw [hfm] at h; simp [EF.isFinite] at h

/-- Witness for C9 at concrete inputs: a degenerate explicit range,
single-valued data, and a positive-width conclusion instance. -/
theorem C9_witness :
    create_axis [] (.count 3) (some ⟨.val (.fin 2), .val (.fin 2)⟩) =
      .ok (.regular 3 (2 - 1/2) (2 + 1/2)) ∧
    create_axis [.fin 7, .fin 7] (.count 4) none = .ok (.regular 4 (7 - 1/2) (7 + 1/2)) ∧
    (0 : ℚ) < 1 :=
  ⟨C9_create_axis_positive_width.2.1 [] 3 ⟨.val (.fin 2), .val (.fin 2)⟩ 2
      (by decide) (by decide),
    C9_create_axis_positive_width.2.2.1 [.fin 7, .fin 7] 4 7 (by decide) (by decide),
    C9_create_axis_positive_width.2.2.2 [] (.count 5) none 5 0 1 (by decide)⟩

/-! Section: Claims about the fill-coverage warning -/

/-- Claim C5: `make_hist` and `make_2d_hist` warn exactly when the in-range
sum of the filled content divided by the sum including the flow bins is
below 0.99, and do not warn when at least 99% is contained. -/
theorem C5_coverage_warning :
    (∀ (data : List ℚ) (bins : BinsSpec) (range? : Option RangeSpec)
        (weights : List ℚ) (out : MakeHistOut) (lo hi inS tot : ℚ),
      make_hist data bins range? weights = .ok out →
      axisBounds out.axis = (lo, hi) →
      fillSums lo hi (data.zip weights) = (inS, tot) → tot ≠ 0 →
      ((out.warned = true ↔ inS / tot < 99/100) ∧
        (99/100 ≤ inS / tot → out.warned = false))) ∧
    (∀ (data : List (List ℚ)) (bins1 bins2 : BinsSpec) (r1 r2 : Option RangeSpec)
        (weights : List ℚ) (out : Make2DOut) (lo1 hi1 lo2 hi2 inS tot : ℚ),
      make_2d_hist data bins1 bins2 r1 r2 weights = .ok out →
      axisBounds out.axis1 = (lo1, hi1) → axisBounds out.axis2 = (lo2, hi2) →
      fillSums2 lo1 hi1 lo2 hi2
        (((data.headD []).zip ((data.drop 1).headD [])).zip weights) = (inS, tot) →
      tot ≠ 0 →
      ((out.warned = true ↔ inS / tot < 99/100) ∧
        (99/100 ≤ inS / tot → out.warned = false))) := by
  constructor
  · intro data bins range? weights out lo hi inS tot hok hb hf htot
    cases hca : create_axis (data.map EF.fin) bins range? with
    | error e => simp [make_hist, hca] at hok
    | ok a =>
      simp only [make_hist, hca] at hok
      cases hok
      rw [hb]
      simp only [hf]
      constructor
      · simp [coverageWarns, htot]
      · intro hge
        simp [coverageWarns, htot, not_lt.2 hge]
  · intro data bins1 bins2 r1 r2 weights out lo1 hi1 lo2 hi2 inS tot hok hb1 hb2 hf htot
    cases data with
    | nil => simp [make_2d_hist] at hok
    | cons xs rest =>
      cases rest with
      | nil => simp [make_2d_hist] at hok
      | cons ys rest2 =>
        cases rest2 with
        | cons z rest3 => simp [make_2d_hist] at hok
        | nil =>
          by_cases hl : xs.length = ys.length
          · simp only [make_2d_hist, List.headD_cons, List.drop_succ_cons,
              List.drop_zero] at hok hf
            rw [if_neg (by simp)] at hok
            rw [if_neg (not_not_intro hl)] at hok
            cases hca1 : create_axis (xs.map EF.fin) bins1 r1 with
            | error e => rw [hca1] at hok; exact absurd hok (by simp)
            | ok a1 =>
              cases hca2 : create_axis (ys.map EF.fin) bins2 r2 with
              | error e => rw [hca1, hca2] at hok; exact absurd hok (by simp)
              | ok a2 =>
                rw [hca1, hca2] at hok
                simp only [Except.ok.injEq] at hok
                cases hok
                rw [hb1, hb2]
                simp only [hf]
                constructor
                · simp [coverageWarns, htot]
                · intro hge
                  simp [coverageWarns, htot, not_lt.2 hge]
          · simp [make_2d_hist, hl] at hok

/-- Witness for C5 at concrete inputs: one in-range point gives full
coverage and no warning (both 1D and 2D). -/
theorem C5_witness :
    ((MakeHistOut.mk (.regular 1 0 1) false).warned = true ↔ (1 : ℚ) / 1 < 99/100) ∧
    (99/100 ≤ (1 : ℚ) / 1 → (MakeHistOut.mk (.regular 1 0 1) false).warned = false) :=
  C5_coverage_warning.1 [0] (.count 1) (some ⟨.val (.fin 0), .val (.fin 1)⟩) [1]
    ⟨.regular 1 0 1, false⟩ 0 1 1 1
    (by simp only [make_hist, create_axis, resolveEnd, EF.gt, EF.lt, EF.isFinite,
        finishAxis, fillSums, coverageWarns, axisBounds]
        norm_num)
    rfl
    (by norm_num [fillSums])
    (by norm_num)

/-! Section: Claims about required-argument errors -/

/-- Claim C8: `plot_model` and `compare_data_model` raise `ValueError` when
both component lists are empty, and `make_2d_hist` raises `ValueError` when
`data` does not have exactly two components or their lengths differ. -/
theorem C8_required_components :
    (∀ (kw : SumKwargs) (fig ax : Option ℕ),
      plot_model [] [] kw fig ax = .error .needComponent) ∧
    (∀ (s : ℚ → ℚ) (pci : EF → EF × EF) (d : Hist1D) (kw : SumKwargs) (mu : Bool)
        (ca : Option ComparisonType) (ru : RatioUncertainty) (fig axM axC : Option ℕ),
      compare_data_model s pci d [] [] kw mu ca ru fig axM axC = .error .needComponent) ∧
    (∀ (data : List (List ℚ)) (bins1 bins2 : BinsSpec) (r1 r2 : Option RangeSpec)
        (w : List ℚ), data.length ≠ 2 →
      make_2d_hist data bins1 bins2 r1 r2 w = .error .dataNotTwo) ∧
    (∀ (xs ys : List ℚ) (bins1 bins2 : BinsSpec) (r1 r2 : Option RangeSpec)
        (w : List ℚ), xs.length ≠ ys.length →
      make_2d_hist [xs, ys] bins1 bins2 r1 r2 w = .error .dataLenMismatch) := by
  refine ⟨?_, ?_, ?_, ?_⟩
  · intro kw fig ax
    rfl
  · intro s pci d kw mu ca ru fig axM axC
    rfl
  · intro data bins1 bins2 r1 r2 w h2
    simp [make_2d_hist, h2]
  · intro xs ys bins1 bins2 r1 r2 w hl
    simp [make_2d_hist, hl]

/-- Witness for C8 at concrete inputs. -/
theorem C8_witness :
    make_2d_hist [[1]] (.count 1) (.count 1) none none [] = .error .dataNotTwo ∧
    make_2d_hist [[1], []] (.count 1) (.count 1) none none [] = .error .dataLenMismatch :=
  ⟨C8_required_components.2.2.1 [[1]] (.count 1) (.count 1) none none [] (by decide),
    C8_required_components.2.2.2 [1] [] (.count 1) (.count 1) none none [] (by decide)⟩

/-! Section: Binning-consistency helpers -/

theorem consistentWith_iff {h g : Hist1D} :
    h.consistentWith g = true ↔ h.edges = g.edges ∧ h.bins.length = g.bins.length := by
  simp [Hist1D.consistentWith]

theorem consistentWith_comm (h g : Hist1D) : h.consistentWith g = g.consistentWith h := by
  rw [Bool.eq_iff_iff, consistentWith_iff, consistentWith_iff]
  constructor
  · rintro ⟨e, l⟩; exact ⟨e.symm, l.symm⟩
  · rintro ⟨e, l⟩; exact ⟨e.symm, l.symm⟩

/-- Folding bin-wise addition over histograms consistent with the
accumulator preserves the accumulator's edges and bin count. -/
theorem foldl_histAdd_spec : ∀ (t : List Hist1D) (c : Hist1D),
    t.all (fun g => c.consistentWith g) = true →
    (t.foldl histAdd c).edges = c.edges ∧ (t.foldl histAdd c).bins.length = c.bins.length := by
  intro t
  induction t with
  | nil => intro c _; exact ⟨rfl, rfl⟩
  | cons g t ih =>
    intro c hall
    rw [List.all_cons, Bool.and_eq_true] at hall
    obtain ⟨hg, ht⟩ := hall
    rw [consistentWith_iff] at hg
    have hedges : (histAdd c g).edges = c.edges := rfl
    have hlen : (histAdd c g).bins.length = c.bins.length := by
      simp only [histAdd, List.length_zipWith]
      have := hg.2
      omega
    have hall2 : t.all (fun x => (histAdd c g).consistentWith x) = true := by
      rw [List.all_eq_true] at ht ⊢
      intro x hx
      have hcx := ht x hx
      rw [consistentWith_iff] at hcx ⊢
      exact ⟨hedges.trans hcx.1, hlen.trans hcx.2⟩
    rw [List.foldl_cons]
    obtain ⟨e1, l1⟩ := ih (histAdd c g) hall2
    exact ⟨e1.trans hedges, l1.trans hlen⟩

/-- The sum of a consistent nonempty component list keeps the first
component's edges and bin count. -/
theorem sumHists_spec (c : Hist1D) (t : List Hist1D)
    (hall : t.all (fun g => c.consistentWith g) = true) :
    (sumHists (c :: t)).edges = c.edges ∧ (sumHists (c :: t)).bins.length = c.bins.length :=
  foldl_histAdd_spec t c hall

/-- With at least one component, consistent binning and no figure/axes
arguments, `compare_data_model` succeeds and creates a new figure. -/
theorem compare_data_model_all_none_ok (s : ℚ → ℚ) (pci : EF → EF × EF) (data : Hist1D)
    (stacked unstacked : List Hist1D) (kw : SumKwargs) (mu : Bool)
    (ca : Option ComparisonType) (ru : RatioUncertainty)
    (hne : stacked ++ unstacked ≠ [])
    (hcons : _check_binning_consistency ((stacked ++ unstacked) ++ [data]) = true) :
    ∃ out, compare_data_model s pci data stacked unstacked kw mu ca ru none none none =
      .ok out ∧ out.newFigure = true := by
  obtain ⟨c0, rest, hcomp⟩ : ∃ c0 rest, stacked ++ unstacked = c0 :: rest := by
    cases hc : stacked ++ unstacked with
    | nil => exact absurd hc hne
    | cons a b => exact ⟨a, b, rfl⟩
  have hconsOrig := hcons
  rw [hcomp, List.cons_append] at hcons
  simp only [_check_binning_consistency, List.all_append, Bool.and_eq_true,
    List.all_cons, List.all_nil, Bool.and_true] at hcons
  obtain ⟨hrest, hdata⟩ := hcons
  have hie : (stacked ++ unstacked).isEmpty = false := by rw [hcomp]; rfl
  have hchk : _check_binning_consistency (stacked ++ unstacked) = true := by
    rw [hcomp]
    simp [_check_binning_consistency, hrest]
  have hpm : plot_model stacked unstacked kw (some 0) (some 0) =
      .ok (plot_model_body stacked unstacked kw false) := by
    simp [plot_model, hie, hchk]
  have hsum : (sumHists (stacked ++ unstacked)).edges = c0.edges ∧
      (sumHists (stacked ++ unstacked)).bins.length = c0.bins.length := by
    rw [hcomp]
    exact sumHists_spec c0 rest hrest
  have hme : (if mu then sumHists (stacked ++ unstacked)
      else zeroVariances (sumHists (stacked ++ unstacked))).edges = c0.edges := by
    cases mu <;> simp [zeroVariances, hsum.1]
  have hml : (if mu then sumHists (stacked ++ unstacked)
      else zeroVariances (sumHists (stacked ++ unstacked))).bins.length = c0.bins.length := by
    cases mu <;> simp [zeroVariances, hsum.2]
  have hconsist2 : _check_binning_consistency
      [data, if mu then sumHists (stacked ++ unstacked)
        else zeroVariances (sumHists (stacked ++ unstacked))] = true := by
    simp only [_check_binning_consistency, List.all_cons, List.all_nil, Bool.and_true]
    rw [consistentWith_iff] at hdata ⊢
    exact ⟨hdata.1.symm.trans hme.symm, hdata.2.symm.trans hml.symm⟩
  have hpc : ∀ (c' : ComparisonType) (ru' : RatioUncertainty) (h1u' : UncertaintyType),
      plot_comparison s data (if mu then sumHists (stacked ++ unstacked)
        else zeroVariances (sumHists (stacked ++ unstacked))) c' ru' h1u' =
      .ok (get_comparison s data (if mu then sumHists (stacked ++ unstacked)
        else zeroVariances (sumHists (stacked ++ unstacked))) c') := by
    intro c' ru' h1u'
    simp [plot_comparison, hconsist2]
  refine ⟨⟨(plot_model_body stacked unstacked kw false).events,
      (plot_model_body stacked unstacked kw false).kwargsAfter,
      if _is_unweighted data then .asymmetrical else .symmetrical,
      (plot_error_hist s pci data
        (if _is_unweighted data then .asymmetrical else .symmetrical)).1,
      (plot_error_hist s pci data
        (if _is_unweighted data then .asymmetrical else .symmetrical)).2,
      if _is_unweighted data then .asymmetrical else .symmetrical,
      get_comparison s data (if mu then sumHists (stacked ++ unstacked)
        else zeroVariances (sumHists (stacked ++ unstacked))) (ca.getD .ratioCmp),
      true⟩, ?_, rfl⟩
  simp only [compare_data_model, hie, hconsOrig, Bool.not_true, Option.isNone_none,
    Bool.and_self, if_false, if_true, Bool.false_eq_true, hpm, hpc]

/-! Section: Claim C6: partially provided figure/axes arguments -/

/-- Claim C6: for `plot_2d_hist`, `compare_two_hist`, `compare_data_model`
and `plot_model` (with otherwise valid inputs), providing some but not all
of the figure/axes arguments raises `ValueError`, while providing none of
them makes the function create a new figure. -/
theorem C6_partial_fig_ax :
    (∀ fig ax axc : Option ℕ,
      (fig = none ∨ ax = none ∨ axc = none) → ¬(fig = none ∧ ax = none ∧ axc = none) →
      plot_2d_hist fig ax axc = .error .needFigAx) ∧
    (plot_2d_hist none none none = .ok ⟨true⟩) ∧
    (∀ (s : ℚ → ℚ) (h1 h2 : Hist1D) (c : ComparisonType) (ru : RatioUncertainty)
        (h1u : UncertaintyType) (fig axM axC : Option ℕ),
      _check_binning_consistency [h1, h2] = true →
      (fig = none ∨ axM = none ∨ axC = none) → ¬(fig = none ∧ axM = none ∧ axC = none) →
      compare_two_hist s h1 h2 c ru h1u fig axM axC = .error .needFigAx) ∧
    (∀ (s : ℚ → ℚ) (h1 h2 : Hist1D) (c : ComparisonType) (ru : RatioUncertainty)
        (h1u : UncertaintyType),
      _check_binning_consistency [h1, h2] = true →
      ∃ out, compare_two_hist s h1 h2 c ru h1u none none none = .ok out ∧
        out.newFigure = true) ∧
    (∀ (s : ℚ → ℚ) (pci : EF → EF × EF) (data : Hist1D) (stacked unstacked : List Hist1D)
        (kw : SumKwargs) (mu : Bool) (ca : Option ComparisonType) (ru : RatioUncertainty)
        (fig axM axC : Option ℕ),
      stacked ++ unstacked ≠ [] →
      _check_binning_consistency ((stacked ++ unstacked) ++ [data]) = true →
      (fig = none ∨ axM = none ∨ axC = none) → ¬(fig = none ∧ axM = none ∧ axC = none) →
      compare_data_model s pci data stacked unstacked kw mu ca ru fig axM axC =
        .error .needFigAx) ∧
    (∀ (s : ℚ → ℚ) (pci : EF → EF × EF) (data : Hist1D) (stacked unstacked : List Hist1D)
        (kw : SumKwargs) (mu : Bool) (ca : Option ComparisonType) (ru : RatioUncertainty),
      stacked ++ unstacked ≠ [] →
      _check_binning_consistency ((stacked ++ unstacked) ++ [data]) = true →
      ∃ out, compare_data_model s pci data stacked unstacked kw mu ca ru none none none =
        .ok out ∧ out.newFigure = true) ∧
    (∀ (stacked unstacked : List Hist1D) (kw : SumKwargs) (fig ax : Option ℕ),
      stacked ++ unstacked ≠ [] →
      _check_binning_consistency (stacked ++ unstacked) = true →
      (fig = none ∨ ax = none) → ¬(fig = none ∧ ax = none) →
      plot_model stacked unstacked kw fig ax = .error .needFigAx) ∧
    (∀ (stacked unstacked : List Hist1D) (kw : SumKwargs),
      stacked ++ unstacked ≠ [] →
      _check_binning_consistency (stacked ++ unstacked) = true →
      ∃ out, plot_model stacked unstacked kw none none = .ok out ∧
        out.newFigure = true) := by
  refine ⟨?_, rfl, ?_, ?_, ?_, ?_, ?_, ?_⟩
  · intro fig ax axc hsome hnotall
    rcases fig with _ | f <;> rcases ax with _ | a <;> rcases axc with _ | c <;>
      simp [plot_2d_hist] at hsome hnotall ⊢
  · intro s h1 h2 c ru h1u fig axM axC hcons hsome hnotall
    rcases fig with _ | f <;> rcases axM with _ | a <;> rcases axC with _ | b <;>
      simp [compare_two_hist, hcons] at hsome hnotall ⊢
  · intro s h1 h2 c ru h1u hcons
    exact ⟨⟨get_comparison s h1 h2 c, true⟩,
      by simp [compare_two_hist, hcons, plot_comparison], rfl⟩
  · intro s pci data stacked unstacked kw mu ca ru fig axM axC hne hcons hsome hnotall
    have hie : (stacked ++ unstacked).isEmpty = false := by
      cases hc : stacked ++ unstacked with
      | nil => exact absurd hc hne
      | cons a b => rfl
    have hcons' : _check_binning_consistency (stacked ++ (unstacked ++ [data])) = true := by
      rw [← List.append_assoc]
      exact hcons
    rcases fig with _ | f <;> rcases axM with _ | a <;> rcases axC with _ | b <;>
      simp [compare_data_model, hie, hcons, hcons'] at hsome hnotall ⊢
  · intro s pci data stacked unstacked kw mu ca ru hne hcons
    exact compare_data_model_all_none_ok s pci data stacked unstacked kw mu ca ru hne hcons
  · intro stacked unstacked kw fig ax hne hcons hsome hnotall
    have hie : (stacked ++ unstacked).isEmpty = false := by
      cases hc : stacked ++ unstacked with
      | nil => exact absurd hc hne
      | cons a b => rfl
    rcases fig with _ | f <;> rcases ax with _ | a <;>
      simp [plot_model, hie, hcons] at hsome hnotall ⊢
  · intro stacked unstacked kw hne hcons
    have hie : (stacked ++ unstacked).isEmpty = false := by
      cases hc : stacked ++ unstacked with
      | nil => exact absurd hc hne
      | cons a b => rfl
    refine ⟨plot_model_body stacked unstacked kw true, by simp [plot_model, hie, hcons], ?_⟩
    simp only [plot_model_body]
    split
    · rfl
    · rfl

/-- Witness for C6 at concrete inputs: `fig` given but axes `None` raises;
all `None` creates a new figure. -/
theorem C6_witness :
    plot_2d_hist (some 1) none none = .error .needFigAx ∧
    (∃ out, plot_model [⟨[0, 1], [⟨.fin 1, .fin 1⟩]⟩] [] ⟨none, none, none⟩ none none =
      .ok out ∧ out.newFigure = true) :=
  ⟨C6_partial_fig_ax.1 (some 1) none none (by simp) (by simp),
    C6_partial_fig_ax.2.2.2.2.2.2.2 [⟨[0, 1], [⟨.fin 1, .fin 1⟩]⟩] [] ⟨none, none, none⟩
      (by simp) (by decide)⟩

/-! Section: Claim C7: mismatched binning raises before plotting -/

/-- Claim C7: every function that combines or compares histograms --
`plot_hist` on a list, `compare_two_hist`, `plot_comparison`, `plot_model`,
`plot_mc`, `compare_data_model` and `compare_data_mc` -- raises on every
list of input histograms with mismatched binning (the binning-consistency
check over all its input histograms, the signal included, fails) before
any plotting is performed: the error is returned instead of any plot
output. -/
theorem C7_binning_mismatch :
    (∀ hs : List Hist1D, _check_binning_consistency hs = false →
      plot_hist_list hs = .error .binningMismatch) ∧
    (∀ (s : ℚ → ℚ) (h1 h2 : Hist1D) (c : ComparisonType) (ru : RatioUncertainty)
        (h1u : UncertaintyType) (fig axM axC : Option ℕ),
      _check_binning_consistency [h1, h2] = false →
      compare_two_hist s h1 h2 c ru h1u fig axM axC = .error .binningMismatch) ∧
    (∀ (s : ℚ → ℚ) (h1 h2 : Hist1D) (c : ComparisonType) (ru : RatioUncertainty)
        (h1u : UncertaintyType),
      _check_binning_consistency [h1, h2] = false →
      plot_comparison s h1 h2 c ru h1u = .error .binningMismatch) ∧
    (∀ (stacked unstacked : List Hist1D) (kw : SumKwargs) (fig ax : Option ℕ),
      _check_binning_consistency (stacked ++ unstacked) = false →
      plot_model stacked unstacked kw fig ax = .error .binningMismatch) ∧
    (∀ (mcList : List Hist1D) (signal : Option Hist1D) (stacked : Bool)
        (fig ax : Option ℕ),
      _check_binning_consistency (mcList ++ signal.toList) = false →
      plot_mc mcList signal stacked fig ax = .error .binningMismatch) ∧
    (∀ (s : ℚ → ℚ) (pci : EF → EF × EF) (data : Hist1D) (stacked unstacked : List Hist1D)
        (kw : SumKwargs) (mu : Bool) (ca : Option ComparisonType) (ru : RatioUncertainty)
        (fig axM axC : Option ℕ),
      _check_binning_consistency ((stacked ++ unstacked) ++ [data]) = false →
      compare_data_model s pci data stacked unstacked kw mu ca ru fig axM axC =
        .error .binningMismatch) ∧
    (∀ (s : ℚ → ℚ) (pci : EF → EF × EF) (data : Hist1D) (mcList : List Hist1D)
        (signal : Option Hist1D) (stacked mu : Bool) (ca : Option ComparisonType)
        (fig axM axC : Option ℕ),
      _check_binning_consistency (mcList ++ [data] ++ signal.toList) = false →
      compare_data_mc s pci data mcList signal stacked mu ca fig axM axC =
        .error .binningMismatch) := by
  refine ⟨?_, ?_, ?_, ?_, ?_, ?_, ?_⟩
  · intro hs h
    simp [plot_hist_list, h]
  · intro s h1 h2 c ru h1u fig axM axC h
    simp [compare_two_hist, h]
  · intro s h1 h2 c ru h1u h
    simp [plot_comparison, h]
  · intro stacked unstacked kw fig ax h
    have hie : (stacked ++ unstacked).isEmpty = false := by
      cases hc : stacked ++ unstacked with
      | nil => rw [hc] at h; simp [_check_binning_consistency] at h
      | cons a b => rfl
    simp [plot_model, hie, h]
  · intro mcList signal stacked fig ax h
    simp [plot_mc, h]
  · intro s pci data stacked unstacked kw mu ca ru fig axM axC h
    have hie : (stacked ++ unstacked).isEmpty = false := by
      cases hc : stacked ++ unstacked with
      | nil => rw [hc] at h; simp [_check_binning_consistency] at h
      | cons a b => rfl
    have h' : _check_binning_consistency (stacked ++ (unstacked ++ [data])) = false := by
      rw [← List.append_assoc]
      exact h
    simp [compare_data_model, hie, h, h']
  · intro s pci data mcList signal stacked mu ca fig axM axC h
    have h' : _check_binning_consistency (mcList ++ ([data] ++ signal.toList)) = false := by
      rw [← List.append_assoc]
      exact h
    have h'' : _check_binning_consistency (mcList ++ data :: signal.toList) = false := by
      simpa using h'
    simp [compare_data_mc, h, h', h'']

/-- Witness for C7 at concrete inputs: a three-histogram list whose third
element has different bin edges, and `plot_mc` where the mismatching
histogram is the signal. -/
theorem C7_witness :
    plot_hist_list [⟨[0, 1], [⟨.fin 1, .fin 1⟩]⟩, ⟨[0, 1], [⟨.fin 2, .fin 2⟩]⟩,
        ⟨[0, 2], [⟨.fin 1, .fin 1⟩]⟩] = .error .binningMismatch ∧
    plot_mc [⟨[0, 1], [⟨.fin 1, .fin 1⟩]⟩] (some ⟨[0, 2], [⟨.fin 1, .fin 1⟩]⟩) true
      none none = .error .binningMismatch :=
  ⟨C7_binning_mismatch.1 [⟨[0, 1], [⟨.fin 1, .fin 1⟩]⟩, ⟨[0, 1], [⟨.fin 2, .fin 2⟩]⟩,
      ⟨[0, 2], [⟨.fin 1, .fin 1⟩]⟩] (by decide),
    C7_binning_mismatch.2.2.2.2.1 [⟨[0, 1], [⟨.fin 1, .fin 1⟩]⟩]
      (some ⟨[0, 2], [⟨.fin 1, .fin 1⟩]⟩) true none none (by decide)⟩

/-! Section: Claim C1: comparisons are computed bin by bin -/

/-- Claim C1: for every pair of histograms with consistent binning and
every comparison type (ratio, pull, difference, relative difference,
efficiency), `plot_comparison` computes one comparison value per bin, and
the value of bin `i` is the per-bin function `compBin` applied to bin `i`
of the two inputs alone (so it depends only on the contents and variances
of bin `i`). -/
theorem C1_plot_comparison_binwise (s : ℚ → ℚ) (h1 h2 : Hist1D) (c : ComparisonType)
    (ru : RatioUncertainty) (h1u : UncertaintyType)
    (hcons : _check_binning_consistency [h1, h2] = true) :
    ∃ vs, plot_comparison s h1 h2 c ru h1u = .ok vs ∧ vs.length = h1.bins.length ∧
      ∀ (i : ℕ) (hv : i < vs.length) (hi1 : i < h1.bins.length) (hi2 : i < h2.bins.length),
        vs.get ⟨i, hv⟩ = compBin s c (h1.bins.get ⟨i, hi1⟩) (h2.bins.get ⟨i, hi2⟩) := by
  have hlen : h1.bins.length = h2.bins.length := by
    have hc : h1.consistentWith h2 = true := by
      simpa [_check_binning_consistency] using hcons
    exact (consistentWith_iff.1 hc).2
  refine ⟨get_comparison s h1 h2 c, by simp [plot_comparison, hcons], ?_, ?_⟩
  · simp [get_comparison, List.length_zipWith, hlen]
  · intro i hv hi1 hi2
    simp [get_comparison, List.get_eq_getElem, List.getElem_zipWith]

/-- Witness for C1 at a concrete consistent pair: two bins, checking the
ratio value of bin 0. -/
theorem C1_witness :
    ∃ vs, plot_comparison (fun q => q) ⟨[0, 1, 2], [⟨.fin 1, .fin 1⟩, ⟨.fin 3, .fin 3⟩]⟩
        ⟨[0, 1, 2], [⟨.fin 1, .fin 1⟩, ⟨.fin 2, .fin 2⟩]⟩ .ratioCmp .uncorrelated
        .symmetrical = .ok vs ∧
      vs.length = 2 ∧
      ∀ (hv : 0 < vs.length),
        vs.get ⟨0, hv⟩ = compBin (fun q => q) .ratioCmp ⟨.fin 1, .fin 1⟩ ⟨.fin 1, .fin 1⟩ := by
  obtain ⟨vs, hok, hl, hget⟩ :=
    C1_plot_comparison_binwise (fun q => q) ⟨[0, 1, 2], [⟨.fin 1, .fin 1⟩, ⟨.fin 3, .fin 3⟩]⟩
      ⟨[0, 1, 2], [⟨.fin 1, .fin 1⟩, ⟨.fin 2, .fin 2⟩]⟩ .ratioCmp .uncorrelated
      .symmetrical (by decide)
  exact ⟨vs, hok, hl, fun hv => hget 0 hv (by decide) (by decide)⟩

/-! Section: Claim C10: `plot_hist` and NaN bin values -/

/-- Counterexample to claim C10 as stated: `plot_hist` does modify the
histogram object.  `np.nan_to_num(hist.values(), 0)` passes `0` as the
positional `copy` argument, so the conversion runs in place on the writable
view `hist.values()` returns: after plotting a histogram with a NaN bin,
the stored bin value is 0, not NaN. -/
theorem C10_counterexample :
    (plot_hist ⟨[0, 1], [⟨.nan, .fin 1⟩]⟩).histAfter ≠ ⟨[0, 1], [⟨.nan, .fin 1⟩]⟩ := by
  decide

/-- Claim C10 (amended): `plot_hist` forwards `np.nan_to_num` of the bin
values as weights -- every NaN bin value becomes 0 -- both for a single
histogram and for each histogram of a consistent list; but the replacement
is applied in place to the histogram's value storage, so the histogram
after the call holds the converted values (its variances are unchanged). -/
theorem C10_plot_hist_nan_to_num :
    nanToNum .nan = .fin 0 ∧
    (∀ h : Hist1D,
      (plot_hist h).weights = h.bins.map (fun b => nanToNum b.value) ∧
      (plot_hist h).histAfter = nanToNumBins h ∧
      (plot_hist h).histAfter.edges = h.edges ∧
      (plot_hist h).histAfter.bins.map Bin.variance = h.bins.map Bin.variance) ∧
    (∀ hs : List Hist1D, _check_binning_consistency hs = true →
      plot_hist_list hs =
        .ok ⟨hs.map (fun h => h.bins.map (fun b => nanToNum b.value)),
          hs.map nanToNumBins⟩) := by
  refine ⟨rfl, ?_, ?_⟩
  · intro h
    refine ⟨rfl, rfl, rfl, ?_⟩
    simp [plot_hist, nanToNumBins, List.map_map, Function.comp]
  · intro hs hcons
    simp [plot_hist_list, hcons]

/-- Witness for C10 (amended) at a concrete list with a NaN bin. -/
theorem C10_witness :
    plot_hist_list [⟨[0, 1], [⟨.nan, .fin 1⟩]⟩] =
      .ok ⟨[[.fin 0]], [⟨[0, 1], [⟨.fin 0, .fin 1⟩]⟩]⟩ :=
  C10_plot_hist_nan_to_num.2.2 [⟨[0, 1], [⟨.nan, .fin 1⟩]⟩] (by decide)

/-! Section: Claim C3: statefulness of `plot_model` through `sum_kwargs` -/

/-- The plotting calls of a `plot_model` result (none when it raised). -/
def eventsOf (r : Except Err PlotModelOut) : List PlotEvent :=
  match r with
  | .ok o => o.events
  | .error _ => []

/-- The state of the caller's `sum_kwargs` dictionary after a `plot_model`
call: the dictionary is only touched by `sum_kwargs.pop("show", True)`,
which runs after all the argument checks, so on an error the dictionary
`kw` is unchanged. -/
def kwargsAfterOf (r : Except Err PlotModelOut) (kw : SumKwargs) : SumKwargs :=
  match r with
  | .ok o => o.kwargsAfter
  | .error _ => kw

/-- A histogram and a `sum_kwargs` dictionary mapping "show" to False. -/
def c3Hist : Hist1D := ⟨[0, 1], [⟨.fin 1, .fin 1⟩]⟩

/-- The `sum_kwargs` dictionary `{"show": False}` of the counterexample. -/
def c3Kw : SumKwargs := ⟨some false, none, none⟩

/-- Counterexample to claim C3 as stated: two successive `plot_model` calls
with the same `sum_kwargs` dictionary `{"show": False}` do not behave
identically.  The first call pops "show" from the dictionary and plots no
sum; the second call finds no "show" key, defaults it to True, and plots
the sum of the components. -/
theorem C3_counterexample :
    eventsOf (plot_model [] [c3Hist]
        (kwargsAfterOf (plot_model [] [c3Hist] c3Kw none none) c3Kw) none none) ≠
      eventsOf (plot_model [] [c3Hist] c3Kw none none) := by
  decide

/-- As long as the dictionary does not map "show" to False, a second
`plot_model` run with the dictionary the first call left behind plots the
same things. -/
theorem plot_model_body_second (stacked unstacked : List Hist1D) (kw : SumKwargs)
    (nf : Bool) (hshow : kw.showKey ≠ some false) :
    (plot_model_body stacked unstacked
        (plot_model_body stacked unstacked kw nf).kwargsAfter nf).events =
      (plot_model_body stacked unstacked kw nf).events := by
  cases hu : unstacked.isEmpty with
  | true => simp [plot_model_body, hu]
  | false =>
    cases hs : kw.showKey with
    | none => simp [plot_model_body, hu, popShow, hs]
    | some b =>
      cases b with
      | false => exact absurd hs hshow
      | true => simp [plot_model_body, hu, popShow, hs]

/-- Claim C3 (amended): `plot_model` is not stateless in its `sum_kwargs`
dictionary: it removes the key "show" from the dictionary passed in (when
there are unstacked components).  Two successive calls with the same
dictionary behave identically provided the dictionary does not map "show"
to False; when it does, the first call removes the key and the second call
falls back to the default True, additionally plotting the component sum. -/
theorem C3_plot_model_kwargs_stateless (stacked unstacked : List Hist1D) (kw : SumKwargs)
    (fig ax : Option ℕ) (hshow : kw.showKey ≠ some false) :
    eventsOf (plot_model stacked unstacked
        (kwargsAfterOf (plot_model stacked unstacked kw fig ax) kw) fig ax) =
      eventsOf (plot_model stacked unstacked kw fig ax) := by
  cases hie : (stacked ++ unstacked).isEmpty with
  | true => simp [plot_model, hie, kwargsAfterOf, eventsOf]
  | false =>
    cases hchk : _check_binning_consistency (stacked ++ unstacked) with
    | false => simp [plot_model, hie, hchk, kwargsAfterOf, eventsOf]
    | true =>
      rcases fig with _ | f <;> rcases ax with _ | a <;>
        simp [plot_model, hie, hchk, kwargsAfterOf, eventsOf,
          plot_model_body_second stacked unstacked kw true hshow,
          plot_model_body_second stacked unstacked kw false hshow]

/-- Witness for C3 (amended) at a concrete input with `{"show": True}`. -/
theorem C3_witness :
    eventsOf (plot_model [] [⟨[0, 1], [⟨.fin 2, .fin 2⟩]⟩]
        (kwargsAfterOf (plot_model [] [⟨[0, 1], [⟨.fin 2, .fin 2⟩]⟩]
          ⟨some true, none, none⟩ none none) ⟨some true, none, none⟩) none none) =
      eventsOf (plot_model [] [⟨[0, 1], [⟨.fin 2, .fin 2⟩]⟩]
        ⟨some true, none, none⟩ none none) :=
  C3_plot_model_kwargs_stateless [] [⟨[0, 1], [⟨.fin 2, .fin 2⟩]⟩]
    ⟨some true, none, none⟩ none none (by decide)

/-! Section: Claim C2: data uncertainty selection -/

/-- What `compare_data_model` computes on success: the data uncertainty
type is asymmetrical exactly when the data histogram is unweighted, the same
type is forwarded to `plot_comparison` as `hist_1_uncertainty`, and the
drawn error bars are `plot_error_hist` of that type. -/
theorem compare_data_model_ok_spec (s : ℚ → ℚ) (pci : EF → EF × EF) (data : Hist1D)
    (stacked unstacked : List Hist1D) (kw : SumKwargs) (mu : Bool)
    (ca : Option ComparisonType) (ru : RatioUncertainty) (fig axM axC : Option ℕ)
    (out : CompareDataModelOut)
    (h : compare_data_model s pci data stacked unstacked kw mu ca ru fig axM axC = .ok out) :
    out.dataUncertaintyType =
      (if _is_unweighted data then .asymmetrical else .symmetrical) ∧
    out.comparisonH1Uncertainty = out.dataUncertaintyType ∧
    (out.dataYerrLow, out.dataYerrHigh) = plot_error_hist s pci data out.dataUncertaintyType := by
  simp only [compare_data_model] at h
  split at h
  · simp at h
  · split at h
    · simp at h
    · split at h
      · split at h
        · simp at h
        · split at h
          · simp at h
          · cases h
            exact ⟨rfl, rfl, rfl⟩
      · split at h
        · simp at h
        · split at h
          · simp at h
          · split at h
            · simp at h
            · cases h
              exact ⟨rfl, rfl, rfl⟩

/-- Claim C2: in `compare_data_model` (and hence `compare_data_mc`), the
data uncertainties drawn and propagated into the comparison are asymmetric
Poisson confidence intervals if and only if the data histogram is
unweighted; otherwise the symmetric `sqrt(variance)` is used. -/
theorem C2_data_uncertainty_poisson_iff_unweighted :
    (∀ (s : ℚ → ℚ) (pci : EF → EF × EF) (data : Hist1D) (stacked unstacked : List Hist1D)
        (kw : SumKwargs) (mu : Bool) (ca : Option ComparisonType) (ru : RatioUncertainty)
        (fig axM axC : Option ℕ) (out : CompareDataModelOut),
      compare_data_model s pci data stacked unstacked kw mu ca ru fig axM axC = .ok out →
      ((out.dataUncertaintyType = .asymmetrical ↔ _is_unweighted data = true) ∧
        out.comparisonH1Uncertainty = out.dataUncertaintyType ∧
        (_is_unweighted data = false →
          out.dataYerrLow = data.bins.map (fun b => efSqrt s b.variance) ∧
          out.dataYerrHigh = data.bins.map (fun b => efSqrt s b.variance)) ∧
        (_is_unweighted data = true →
          out.dataYerrLow = data.bins.map (fun b => (pci b.value).1) ∧
          out.dataYerrHigh = data.bins.map (fun b => (pci b.value).2)))) ∧
    (∀ (s : ℚ → ℚ) (pci : EF → EF × EF) (data : Hist1D) (mcList : List Hist1D)
        (signal : Option Hist1D) (stacked mu : Bool) (ca : Option ComparisonType)
        (fig axM axC : Option ℕ) (out : CompareDataModelOut),
      compare_data_mc s pci data mcList signal stacked mu ca fig axM axC = .ok out →
      ((out.dataUncertaintyType = .asymmetrical ↔ _is_unweighted data = true) ∧
        out.comparisonH1Uncertainty = out.dataUncertaintyType)) := by
  constructor
  · intro s pci data stacked unstacked kw mu ca ru fig axM axC out h
    obtain ⟨hut, hcmp, hyerr⟩ :=
      compare_data_model_ok_spec s pci data stacked unstacked kw mu ca ru fig axM axC out h
    cases hw : _is_unweighted data with
    | false =>
      rw [hw] at hut
      simp only [if_false, Bool.false_eq_true] at hut
      refine ⟨by simp [hut], hcmp, ?_, by simp⟩
      intro _
      rw [hut] at hyerr
      simp only [plot_error_hist] at hyerr
      exact ⟨congrArg Prod.fst hyerr, congrArg Prod.snd hyerr⟩
    | true =>
      rw [hw] at hut
      simp only [if_true] at hut
      refine ⟨by simp [hut], hcmp, by simp, ?_⟩
      intro _
      rw [hut] at hyerr
      simp only [plot_error_hist] at hyerr
      exact ⟨congrArg Prod.fst hyerr, congrArg Prod.snd hyerr⟩
  · intro s pci data mcList signal stacked mu ca fig axM axC out h
    simp only [compare_data_mc] at h
    split at h
    · simp at h
    · split at h
      · obtain ⟨hut, hcmp, _⟩ :=
          compare_data_model_ok_spec s pci data mcList [] mcSumKwargs mu ca .split
            fig axM axC out h
        cases hw : _is_unweighted data with
        | false =>
          rw [hw] at hut
          simp only [if_false, Bool.false_eq_true] at hut
          exact ⟨by simp [hut], hcmp⟩
        | true =>
          rw [hw] at hut
          simp only [if_true] at hut
          exact ⟨by simp [hut], hcmp⟩
      · obtain ⟨hut, hcmp, _⟩ :=
          compare_data_model_ok_spec s pci data [] mcList mcSumKwargs mu ca .split
            fig axM axC out h
        cases hw : _is_unweighted data with
        | false =>
          rw [hw] at hut
          simp only [if_false, Bool.false_eq_true] at hut
          exact ⟨by simp [hut], hcmp⟩
        | true =>
          rw [hw] at hut
          simp only [if_true] at hut
          exact ⟨by simp [hut], hcmp⟩

/-- Witness for C2 at a concrete unweighted data histogram. -/
theorem C2_witness :
    ∃ out, compare_data_model (fun q => q) (fun v => (v, v)) ⟨[0, 1], [⟨.fin 1, .fin 1⟩]⟩
        [⟨[0, 1], [⟨.fin 0, .fin 0⟩]⟩] [] ⟨some true, none, none⟩ true none .split
        none none none = .ok out ∧
      (out.dataUncertaintyType = .asymmetrical ↔
        _is_unweighted ⟨[0, 1], [⟨.fin 1, .fin 1⟩]⟩ = true) := by
  have h : compare_data_model (fun q => q) (fun v => (v, v)) ⟨[0, 1], [⟨.fin 1, .fin 1⟩]⟩
      [⟨[0, 1], [⟨.fin 0, .fin 0⟩]⟩] [] ⟨some true, none, none⟩ true none .split
      none none none =
      .ok ⟨[.stackedPlot [⟨[0, 1], [⟨.fin 0, .fin 0⟩]⟩]], ⟨some true, none, none⟩,
        .asymmetrical, [.fin 1], [.fin 1], .asymmetrical, [.pinf], true⟩ := by
    decide
  exact ⟨_, h, (C2_data_uncertainty_poisson_iff_unweighted.1 (fun q => q) (fun v => (v, v))
    ⟨[0, 1], [⟨.fin 1, .fin 1⟩]⟩ [⟨[0, 1], [⟨.fin 0, .fin 0⟩]⟩] [] ⟨some true, none, none⟩
    true none .split none none none _ h).1⟩

end Plothist
